import Mathlib

/-!
Shallow embedding of the `uni-finder` university search service.

The definitions below translate `src/lib/university-service.ts`
(`UniversityService.filterUniversities`, `sortUniversities`,
`paginateResults`, `getUniversities`, `getUniversitiesByIds`) and
`src/app/api/universities/compare/route.ts` (the comparison endpoint).
The static catalog (`lib/db.ts`) is passed explicitly as a `List University`
parameter; every theorem quantifies over it.

Numbers are modelled as `ℚ` (JavaScript numbers used by the service hold
currency amounts, years, percentages and rankings; no rounding behaviour of
binary floating point is exercised by the service logic). A missing ranking
(`null`) is `Option.none`. JavaScript truthiness tests that appear in the
source (`if (filters.search)`, `uni1.ranking && uni2.ranking`, ...) are
translated explicitly: a string is truthy iff non-empty, a number is truthy
iff non-zero, `null`/`undefined` are falsy.
-/

namespace UniFinder

inductive CampusType
  | urban | suburban | rural
deriving DecidableEq, BEq

inductive ResearchOutput
  | low | medium | high | veryHigh
deriving DecidableEq, BEq

/-- The fields of the `University` record (src/types) that the service logic
reads; display-only fields (imageUrl, website, currency, ...) are omitted. -/
structure University where
  id : String
  name : String
  country : String
  city : String
  description : String
  tuitionFee : ℚ
  ranking : Option ℚ
  establishedYear : ℚ
  acceptanceRate : ℚ
  programs : List String
  researchOutput : ResearchOutput
  scholarshipAvailable : Bool
  campusType : CampusType
  employmentRate : ℚ
deriving DecidableEq

inductive SortField
  | name | ranking | tuitionFee | establishedYear | acceptanceRate | employmentRate
deriving DecidableEq

inductive SortOrder
  | asc | desc
deriving DecidableEq

/-- `UniversityFilters` from src/types: every filter dimension is optional;
`page`, `limit`, `sortOrder` have the schema defaults. -/
structure UniversityFilters where
  search : Option String := none
  countries : Option (List String) := none
  cities : Option (List String) := none
  minTuition : Option ℚ := none
  maxTuition : Option ℚ := none
  minRanking : Option ℚ := none
  maxRanking : Option ℚ := none
  minYear : Option ℚ := none
  maxYear : Option ℚ := none
  programs : Option (List String) := none
  minAcceptanceRate : Option ℚ := none
  maxAcceptanceRate : Option ℚ := none
  campusTypes : Option (List CampusType) := none
  scholarshipOnly : Option Bool := none
  minEmploymentRate : Option ℚ := none
  researchOutput : Option (List ResearchOutput) := none
  page : Nat := 1
  limit : Nat := 12
  sortBy : Option SortField := none
  sortOrder : SortOrder := SortOrder.asc

/-- Does `needle` occur at the head of `hay`? (helper for substring test). -/
def subAt : List Char → List Char → Bool
  | [], _ => true
  | _ :: _, [] => false
  | c :: cs, d :: ds => c == d && subAt cs ds

/-- Does `needle` occur anywhere in `hay`? -/
def hasSub (needle : List Char) : List Char → Bool
  | [] => subAt needle []
  | c :: t => subAt needle (c :: t) || hasSub needle t

/-- JavaScript `hay.includes(needle)`. -/
def strIncludes (hay needle : String) : Bool :=
  hasSub needle.toList hay.toList

/-- The text-search predicate of `filterUniversities`: case-insensitive
substring match against name, city, country or description (in source order). -/
def searchPred (s : String) (u : University) : Bool :=
  let sl := s.toLower
  strIncludes u.name.toLower sl ||
  strIncludes u.city.toLower sl ||
  strIncludes u.country.toLower sl ||
  strIncludes u.description.toLower sl

/-- One conditional filter stage of `filterUniversities`: if the option is
present and its activity test holds, apply `List.filter`, else pass through. -/
def optStep {β : Type} (o : Option β) (act : β → Bool) (p : β → University → Bool)
    (l : List University) : List University :=
  match o with
  | some x => if act x then l.filter (p x) else l
  | none => l

/-- Whether a record satisfies one (possibly inactive) filter stage on its own:
inactive stages constrain nothing. -/
def stepKeeps {β : Type} (o : Option β) (act : β → Bool) (p : β → University → Bool)
    (u : University) : Bool :=
  match o with
  | some x => !(act x) || p x u
  | none => true

/-- `UniversityService.filterUniversities`: the sixteen conditional filter
stages, applied sequentially in source order. -/
def filterUniversities (catalog : List University) (f : UniversityFilters) :
    List University :=
  let l1 := optStep f.search (fun s => !(s == "")) searchPred catalog
  let l2 := optStep f.countries (fun cs => decide (0 < cs.length))
    (fun cs v => cs.contains v.country) l1
  let l3 := optStep f.cities (fun cs => decide (0 < cs.length))
    (fun cs v => cs.contains v.city) l2
  let l4 := optStep f.minTuition (fun _ => true)
    (fun m v => decide (m ≤ v.tuitionFee)) l3
  let l5 := optStep f.maxTuition (fun _ => true)
    (fun m v => decide (v.tuitionFee ≤ m)) l4
  let l6 := optStep f.minRanking (fun _ => true)
    (fun m v => match v.ranking with | some r => decide (m ≤ r) | none => false) l5
  let l7 := optStep f.maxRanking (fun _ => true)
    (fun m v => match v.ranking with | some r => decide (r ≤ m) | none => false) l6
  let l8 := optStep f.minYear (fun _ => true)
    (fun m v => decide (m ≤ v.establishedYear)) l7
  let l9 := optStep f.maxYear (fun _ => true)
    (fun m v => decide (v.establishedYear ≤ m)) l8
  let l10 := optStep f.programs (fun ps => decide (0 < ps.length))
    (fun ps v => ps.any (fun p => v.programs.contains p)) l9
  let l11 := optStep f.minAcceptanceRate (fun _ => true)
    (fun m v => decide (m ≤ v.acceptanceRate)) l10
  let l12 := optStep f.maxAcceptanceRate (fun _ => true)
    (fun m v => decide (v.acceptanceRate ≤ m)) l11
  let l13 := optStep f.campusTypes (fun cs => decide (0 < cs.length))
    (fun cs v => cs.contains v.campusType) l12
  let l14 := optStep f.scholarshipOnly (fun b => b)
    (fun _ v => v.scholarshipAvailable) l13
  let l15 := optStep f.minEmploymentRate (fun _ => true)
    (fun m v => decide (m ≤ v.employmentRate)) l14
  optStep f.researchOutput (fun cs => decide (0 < cs.length))
    (fun cs v => cs.contains v.researchOutput) l15

/-- Spec-side conjunctive reading of the filter request: a record matches iff
it independently satisfies every active filter dimension (inactive dimensions
constrain nothing). Same per-dimension predicates, combined by logical AND. -/
def matchesAllFilters (f : UniversityFilters) (u : University) : Bool :=
  stepKeeps f.search (fun s => !(s == "")) searchPred u &&
  stepKeeps f.countries (fun cs => decide (0 < cs.length))
    (fun cs v => cs.contains v.country) u &&
  stepKeeps f.cities (fun cs => decide (0 < cs.length))
    (fun cs v => cs.contains v.city) u &&
  stepKeeps f.minTuition (fun _ => true)
    (fun m v => decide (m ≤ v.tuitionFee)) u &&
  stepKeeps f.maxTuition (fun _ => true)
    (fun m v => decide (v.tuitionFee ≤ m)) u &&
  stepKeeps f.minRanking (fun _ => true)
    (fun m v => match v.ranking with | some r => decide (m ≤ r) | none => false) u &&
  stepKeeps f.maxRanking (fun _ => true)
    (fun m v => match v.ranking with | some r => decide (r ≤ m) | none => false) u &&
  stepKeeps f.minYear (fun _ => true)
    (fun m v => decide (m ≤ v.establishedYear)) u &&
  stepKeeps f.maxYear (fun _ => true)
    (fun m v => decide (v.establishedYear ≤ m)) u &&
  stepKeeps f.programs (fun ps => decide (0 < ps.length))
    (fun ps v => ps.any (fun p => v.programs.contains p)) u &&
  stepKeeps f.minAcceptanceRate (fun _ => true)
    (fun m v => decide (m ≤ v.acceptanceRate)) u &&
  stepKeeps f.maxAcceptanceRate (fun _ => true)
    (fun m v => decide (v.acceptanceRate ≤ m)) u &&
  stepKeeps f.campusTypes (fun cs => decide (0 < cs.length))
    (fun cs v => cs.contains v.campusType) u &&
  stepKeeps f.scholarshipOnly (fun b => b)
    (fun _ v => v.scholarshipAvailable) u &&
  stepKeeps f.minEmploymentRate (fun _ => true)
    (fun m v => decide (m ≤ v.employmentRate)) u &&
  stepKeeps f.researchOutput (fun cs => decide (0 < cs.length))
    (fun cs v => cs.contains v.researchOutput) u

/-- `Number.MAX_SAFE_INTEGER`, substituted for a missing ranking by the sort. -/
def maxSafeInteger : ℚ := 9007199254740991

/-- The numeric sort key extracted by the comparator of `sortUniversities`
(`name` is compared as a string and gets a dummy key here). -/
def numKey : SortField → University → ℚ
  | SortField.ranking, u => u.ranking.getD maxSafeInteger
  | SortField.tuitionFee, u => u.tuitionFee
  | SortField.establishedYear, u => u.establishedYear
  | SortField.acceptanceRate, u => u.acceptanceRate
  | SortField.employmentRate, u => u.employmentRate
  | SortField.name, _ => 0

/-- String comparison result as a number, mirroring `localeCompare`
(modelled as lexicographic order on the lower-cased strings). -/
def localeCmp (x y : String) : ℚ :=
  if x < y then -1 else if y < x then 1 else 0

/-- The comparator passed to `Array.prototype.sort` by `sortUniversities`:
string branch for `name`, numeric subtraction otherwise, direction applied. -/
def sortCompare (f : SortField) (ord : SortOrder) (a b : University) : ℚ :=
  match f, ord with
  | SortField.name, SortOrder.asc => localeCmp a.name.toLower b.name.toLower
  | SortField.name, SortOrder.desc => localeCmp b.name.toLower a.name.toLower
  | f, SortOrder.asc => numKey f a - numKey f b
  | f, SortOrder.desc => numKey f b - numKey f a

/-- `UniversityService.sortUniversities`: identity when no sort field is
requested, otherwise a stable sort by the comparator (ES2019
`Array.prototype.sort` is stable; `List.insertionSort` is the stable sort
placing `a` before `b` whenever the comparator is ≤ 0). -/
def sortUniversities (sb : Option SortField) (ord : SortOrder)
    (l : List University) : List University :=
  match sb with
  | none => l
  | some f => List.insertionSort (fun a b => sortCompare f ord a b ≤ 0) l

structure PageResult where
  data : List University
  total : Nat
  totalPages : Int
deriving DecidableEq

/-- `UniversityService.paginateResults`: `total` is the length before slicing,
`totalPages = Math.ceil(total / limit)`, and the data slice is
`universities.slice((page-1)*limit, (page-1)*limit + limit)`. -/
def paginateResults (l : List University) (page limit : Nat) : PageResult :=
  { data := (l.drop ((page - 1) * limit)).take limit
    total := l.length
    totalPages := ⌈(l.length : ℚ) / (limit : ℚ)⌉ }

structure PaginatedResponse where
  data : List University
  total : Nat
  page : Nat
  limit : Nat
  totalPages : Int
deriving DecidableEq

/-- `UniversityService.getUniversities`: filter, then sort, then paginate
(the facet lists returned alongside are not modelled; no claim concerns them). -/
def getUniversities (catalog : List University) (f : UniversityFilters) :
    PaginatedResponse :=
  let filtered := filterUniversities catalog f
  let sorted := sortUniversities f.sortBy f.sortOrder filtered
  let pr := paginateResults sorted f.page f.limit
  { data := pr.data, total := pr.total, page := f.page, limit := f.limit
    totalPages := pr.totalPages }

/-- `UniversityService.getUniversitiesByIds`: keeps the catalog records whose
id occurs among the requested ids — in catalog order, each record at most once. -/
def getUniversitiesByIds (catalog : List University) (ids : List String) :
    List University :=
  catalog.filter (fun u => ids.contains u.id)

inductive CompareError
  | missingIds | invalidArgument | notFound
deriving DecidableEq

structure Comparison where
  first : University
  second : University
  tuitionDifference : ℚ
  rankingDifference : Option ℚ
  acceptanceRateDifference : ℚ
  employmentRateDifference : ℚ
deriving DecidableEq

deriving instance DecidableEq for Except

/-- The comparison metrics computed by the compare route: absolute differences;
the ranking difference is guarded by JavaScript truthiness of both rankings
(`uni1.ranking && uni2.ranking`), so `null` — or a ranking equal to 0 — yields
`null`. -/
def mkComparison (u1 u2 : University) : Comparison :=
  { first := u1
    second := u2
    tuitionDifference := |u1.tuitionFee - u2.tuitionFee|
    rankingDifference :=
      match u1.ranking, u2.ranking with
      | some r1, some r2 => if r1 ≠ 0 ∧ r2 ≠ 0 then some |r1 - r2| else none
      | _, _ => none
    acceptanceRateDifference := |u1.acceptanceRate - u2.acceptanceRate|
    employmentRateDifference := |u1.employmentRate - u2.employmentRate| }

/-- The compare route after query parsing: reject unless exactly two ids were
supplied, fetch by ids, reject unless exactly two records came back, then
build the metrics from the two records in catalog order. -/
def compareIds (catalog : List University) (ids : List String) :
    Except CompareError Comparison :=
  if ids.length ≠ 2 then Except.error CompareError.invalidArgument
  else
    match getUniversitiesByIds catalog ids with
    | [u1, u2] => Except.ok (mkComparison u1 u2)
    | _ => Except.error CompareError.notFound

/-- The full compare route `GET /api/universities/compare?ids=...`: a missing
or empty `ids` parameter is rejected, otherwise the parameter is split on
commas, empty fragments dropped (`.filter(Boolean)`), and handed on. -/
def compareRoute (catalog : List University) (idsParam : Option String) :
    Except CompareError Comparison :=
  match idsParam with
  | none => Except.error CompareError.missingIds
  | some s =>
    if s == "" then Except.error CompareError.missingIds
    else compareIds catalog ((s.splitOn ",").filter (fun t => !(t == "")))

/-- Sample record: ranked 1, offers a scholarship. -/
def uniAlpha : University :=
  { id := "alpha", name := "Alpha University", country := "Wonderland"
    city := "Alphaville", description := "first sample", tuitionFee := 10000
    ranking := some 1, establishedYear := 1900, acceptanceRate := 10
    programs := ["CS"], researchOutput := ResearchOutput.high
    scholarshipAvailable := true, campusType := CampusType.urban
    employmentRate := 90 }

/-- Sample record: ranked 5, no scholarship. -/
def uniBeta : University :=
  { id := "beta", name := "Beta College", country := "Oz"
    city := "Betatown", description := "second sample", tuitionFee := 20000
    ranking := some 5, establishedYear := 1950, acceptanceRate := 40
    programs := ["Law"], researchOutput := ResearchOutput.medium
    scholarshipAvailable := false, campusType := CampusType.suburban
    employmentRate := 80 }

/-- Sample record: unranked. -/
def uniGamma : University :=
  { id := "gamma", name := "Gamma Institute", country := "Oz"
    city := "Gammaburg", description := "third sample", tuitionFee := 5000
    ranking := none, establishedYear := 2000, acceptanceRate := 70
    programs := ["Art"], researchOutput := ResearchOutput.low
    scholarshipAvailable := true, campusType := CampusType.rural
    employmentRate := 60 }

def sampleCatalog : List University := [uniAlpha, uniBeta, uniGamma]

/-- Whether one conditional filter stage is a no-op (option absent, or present
but failing its activity test — e.g. an empty list or empty search string). -/
def stepInactive {β : Type} (o : Option β) (act : β → Bool) : Bool :=
  match o with
  | some x => !(act x)
  | none => true

/-- No filter predicate of the request is active: every one of the sixteen
stages of `filterUniversities` passes the catalog through unchanged. -/
def noActiveFilters (f : UniversityFilters) : Bool :=
  stepInactive f.search (fun s => !(s == "")) &&
  stepInactive f.countries (fun cs => decide (0 < cs.length)) &&
  stepInactive f.cities (fun cs => decide (0 < cs.length)) &&
  stepInactive f.minTuition (fun _ => true) &&
  stepInactive f.maxTuition (fun _ => true) &&
  stepInactive f.minRanking (fun _ => true) &&
  stepInactive f.maxRanking (fun _ => true) &&
  stepInactive f.minYear (fun _ => true) &&
  stepInactive f.maxYear (fun _ => true) &&
  stepInactive f.programs (fun ps => decide (0 < ps.length)) &&
  stepInactive f.minAcceptanceRate (fun _ => true) &&
  stepInactive f.maxAcceptanceRate (fun _ => true) &&
  stepInactive f.campusTypes (fun cs => decide (0 < cs.length)) &&
  stepInactive f.scholarshipOnly (fun b => b) &&
  stepInactive f.minEmploymentRate (fun _ => true) &&
  stepInactive f.researchOutput (fun cs => decide (0 < cs.length))

theorem mem_optStep {β : Type} {o : Option β} {act : β → Bool}
    {p : β → University → Bool} {l : List University} {u : University} :
    u ∈ optStep o act p l ↔ u ∈ l ∧ stepKeeps o act p u = true := by
  cases o with
  | none => simp [optStep, stepKeeps]
  | some x => cases hax : act x <;> simp [optStep, stepKeeps, hax, List.mem_filter]

theorem mem_filterUniversities {catalog : List University} {f : UniversityFilters}
    {u : University} :
    u ∈ filterUniversities catalog f ↔ u ∈ catalog ∧ matchesAllFilters f u = true := by
  simp only [filterUniversities, matchesAllFilters, mem_optStep, Bool.and_eq_true, and_assoc]

theorem optStep_sublist {β : Type} {o : Option β} {act : β → Bool}
    {p : β → University → Bool} {l : List University} :
    (optStep o act p l).Sublist l := by
  cases o with
  | none => exact List.Sublist.refl l
  | some x =>
    by_cases h : act x = true
    · simp only [optStep, h, if_true]
      exact List.filter_sublist l
    · simp only [optStep, h, if_false]
      exact List.Sublist.refl l

theorem filterUniversities_sublist (catalog : List University) (f : UniversityFilters) :
    (filterUniversities catalog f).Sublist catalog := by
  simp only [filterUniversities]
  repeat refine List.Sublist.trans optStep_sublist ?_
  exact List.Sublist.refl catalog

theorem optStep_inactive {β : Type} {o : Option β} {act : β → Bool}
    {p : β → University → Bool} {l : List University}
    (h : stepInactive o act = true) : optStep o act p l = l := by
  cases o with
  | none => rfl
  | some x =>
    simp only [stepInactive, Bool.not_eq_true'] at h
    simp [optStep, h]

theorem sortUniversities_perm (sb : Option SortField) (ord : SortOrder)
    (l : List University) : (sortUniversities sb ord l).Perm l := by
  cases sb with
  | none => exact List.Perm.refl l
  | some f => exact List.perm_insertionSort _ l

theorem sortCompare_asc_iff (f : SortField) (hf : f ≠ SortField.name)
    (a b : University) :
    (sortCompare f SortOrder.asc a b ≤ 0) ↔ numKey f a ≤ numKey f b := by
  cases f <;> first
    | exact absurd rfl hf
    | simp only [sortCompare, sub_nonpos]

theorem sortCompare_desc_iff (f : SortField) (hf : f ≠ SortField.name)
    (a b : University) :
    (sortCompare f SortOrder.desc a b ≤ 0) ↔ numKey f b ≤ numKey f a := by
  cases f <;> first
    | exact absurd rfl hf
    | simp only [sortCompare, sub_nonpos]

theorem sorted_sortUniversities_asc (f : SortField) (hf : f ≠ SortField.name)
    (l : List University) :
    (sortUniversities (some f) SortOrder.asc l).Pairwise
      (fun a b => numKey f a ≤ numKey f b) := by
  haveI htot : IsTotal University (fun a b => sortCompare f SortOrder.asc a b ≤ 0) :=
    ⟨fun a b => by
      simp only [sortCompare_asc_iff f hf]
      exact le_total _ _⟩
  haveI htr : IsTrans University (fun a b => sortCompare f SortOrder.asc a b ≤ 0) :=
    ⟨fun a b c hab hbc => by
      simp only [sortCompare_asc_iff f hf] at hab hbc ⊢
      exact le_trans hab hbc⟩
  have hs := List.sorted_insertionSort (fun a b => sortCompare f SortOrder.asc a b ≤ 0) l
  exact hs.imp (fun hab => (sortCompare_asc_iff f hf _ _).mp hab)

theorem sorted_sortUniversities_desc (f : SortField) (hf : f ≠ SortField.name)
    (l : List University) :
    (sortUniversities (some f) SortOrder.desc l).Pairwise
      (fun a b => numKey f b ≤ numKey f a) := by
  haveI htot : IsTotal University (fun a b => sortCompare f SortOrder.desc a b ≤ 0) :=
    ⟨fun a b => by
      simp only [sortCompare_desc_iff f hf]
      exact le_total _ _⟩
  haveI htr : IsTrans University (fun a b => sortCompare f SortOrder.desc a b ≤ 0) :=
    ⟨fun a b c hab hbc => by
      simp only [sortCompare_desc_iff f hf] at hab hbc ⊢
      exact le_trans hbc hab⟩
  have hs := List.sorted_insertionSort (fun a b => sortCompare f SortOrder.desc a b ≤ 0) l
  exact hs.imp (fun hab => (sortCompare_desc_iff f hf _ _).mp hab)

/-- C1: filtering is conjunctive across dimensions — a record appears in the
result of `filterUniversities` iff it is a catalog record and independently
satisfies every active filter predicate (`matchesAllFilters` is the logical
AND of the sixteen per-dimension predicates, inactive dimensions constraining
nothing). -/
theorem filter_conjunctive (catalog : List University) (f : UniversityFilters)
    (u : University) :
    u ∈ filterUniversities catalog f ↔ u ∈ catalog ∧ matchesAllFilters f u = true :=
  mem_filterUniversities

/-- C5: whenever either ranking bound is specified, every record lacking a
ranking is excluded from the filtered result. -/
theorem ranking_bounds_exclude_unranked (catalog : List University)
    (f : UniversityFilters) (u : University)
    (hb : f.minRanking ≠ none ∨ f.maxRanking ≠ none)
    (hu : u ∈ filterUniversities catalog f) : u.ranking ≠ none := by
  rcases mem_filterUniversities.mp hu with ⟨-, hm⟩
  simp only [matchesAllFilters, Bool.and_eq_true, and_assoc] at hm
  obtain ⟨h1, h2, h3, h4, h5, h6, h7, h8, h9, h10, h11, h12, h13, h14, h15, h16⟩ := hm
  intro hnone
  rcases hb with hbmin | hbmax
  · obtain ⟨m, hmeq⟩ := Option.ne_none_iff_exists'.mp hbmin
    rw [hmeq] at h6
    simp [stepKeeps, hnone] at h6
  · obtain ⟨m, hmeq⟩ := Option.ne_none_iff_exists'.mp hbmax
    rw [hmeq] at h7
    simp [stepKeeps, hnone] at h7

/-- C5 witness: a request with a ranking lower bound, at a record of the
filtered result. -/
theorem ranking_bounds_exclude_unranked_witness :
    uniBeta.ranking ≠ none :=
  ranking_bounds_exclude_unranked sampleCatalog { minRanking := some 2 } uniBeta
    (Or.inl (by decide)) (by decide)

/-- C9: a request in which no filter predicate is active reports `total` equal
to the size of the full catalog. -/
theorem no_active_filters_total (catalog : List University) (f : UniversityFilters)
    (h : noActiveFilters f = true) :
    (getUniversities catalog f).total = catalog.length := by
  simp only [noActiveFilters, Bool.and_eq_true, and_assoc] at h
  obtain ⟨h1, h2, h3, h4, h5, h6, h7, h8, h9, h10, h11, h12, h13, h14, h15, h16⟩ := h
  have hfil : filterUniversities catalog f = catalog := by
    simp only [filterUniversities]
    rw [optStep_inactive h16, optStep_inactive h15, optStep_inactive h14,
      optStep_inactive h13, optStep_inactive h12, optStep_inactive h11,
      optStep_inactive h10, optStep_inactive h9, optStep_inactive h8,
      optStep_inactive h7, optStep_inactive h6, optStep_inactive h5,
      optStep_inactive h4, optStep_inactive h3, optStep_inactive h2,
      optStep_inactive h1]
  simp only [getUniversities, paginateResults, hfil]
  exact (sortUniversities_perm f.sortBy f.sortOrder catalog).length_eq

/-- C9 witness: the empty filter request over the three-record sample catalog. -/
theorem no_active_filters_total_witness :
    (getUniversities sampleCatalog {}).total = sampleCatalog.length :=
  no_active_filters_total sampleCatalog {} (by decide)

/-- C10: the filtered result is an order-preserving subsequence of the catalog
(no duplication, no reordering), and when no sort field is requested the
records of the returned page form a subsequence of the catalog as well. -/
theorem filter_order_preserving (catalog : List University) (f : UniversityFilters) :
    (filterUniversities catalog f).Sublist catalog ∧
    (f.sortBy = none → (getUniversities catalog f).data.Sublist catalog) := by
  refine ⟨filterUniversities_sublist catalog f, fun hs => ?_⟩
  simp only [getUniversities, paginateResults, hs, sortUniversities]
  exact ((List.take_sublist _ _).trans (List.drop_sublist _ _)).trans
    (filterUniversities_sublist catalog f)

/-- C10 witness: the empty request (no sort field) over the sample catalog. -/
theorem filter_order_preserving_witness :
    (getUniversities sampleCatalog {}).data.Sublist sampleCatalog :=
  (filter_order_preserving sampleCatalog {}).2 rfl

/-- C2 counterexample: sorting a ranked and an unranked record by ranking in
descending order puts the unranked record first, not after the ranked one —
the missing ranking becomes `MAX_SAFE_INTEGER` and the direction is applied to
that key. -/
theorem ranking_desc_unranked_first_cex :
    ¬ ((sortUniversities (some SortField.ranking) SortOrder.desc [uniAlpha, uniGamma]).Pairwise
        (fun a b => a.ranking = none → b.ranking = none)) := by
  have hcmp : ¬ (sortCompare SortField.ranking SortOrder.desc uniAlpha uniGamma ≤ 0) := by
    simp only [sortCompare, numKey, uniAlpha, uniGamma, maxSafeInteger, Option.getD_none,
      Option.getD_some]
    norm_num
  have hres : sortUniversities (some SortField.ranking) SortOrder.desc [uniAlpha, uniGamma] =
      [uniGamma, uniAlpha] := by
    simp only [sortUniversities, List.insertionSort, List.orderedInsert]
    rw [if_neg hcmp]
  rw [hres]
  intro hp
  rcases List.pairwise_cons.mp hp with ⟨hrel, -⟩
  have h2 := hrel uniAlpha (List.mem_cons_self _ _) rfl
  exact absurd h2 (by decide)

/-- C2 amended: records lacking a ranking sort as a maximal key, so they appear
after all ranked records in ascending order but before all ranked records in
descending order (for catalogs whose rankings are below the
`MAX_SAFE_INTEGER` sentinel). -/
theorem ranking_sort_unranked_placement (l : List University)
    (h : ∀ u ∈ l, u.ranking.getD 0 < maxSafeInteger) :
    ((sortUniversities (some SortField.ranking) SortOrder.asc l).Pairwise
      (fun a b => a.ranking = none → b.ranking = none)) ∧
    ((sortUniversities (some SortField.ranking) SortOrder.desc l).Pairwise
      (fun a b => b.ranking = none → a.ranking = none)) := by
  have hfne : SortField.ranking ≠ SortField.name := by decide
  constructor
  · have hs := sorted_sortUniversities_asc SortField.ranking hfne l
    have hperm := sortUniversities_perm (some SortField.ranking) SortOrder.asc l
    refine List.Pairwise.imp_of_mem ?_ hs
    intro a b ha hb hle hnone
    by_contra hbn
    obtain ⟨r, hr⟩ := Option.ne_none_iff_exists'.mp hbn
    have hbl : b ∈ l := hperm.mem_iff.mp hb
    have hrlt : r < maxSafeInteger := by
      have := h b hbl
      rwa [hr, Option.getD_some] at this
    have hka : numKey SortField.ranking a = maxSafeInteger := by
      simp [numKey, hnone]
    have hkb : numKey SortField.ranking b = r := by
      simp [numKey, hr]
    rw [hka, hkb] at hle
    exact absurd (lt_of_le_of_lt hle hrlt) (lt_irrefl _)
  · have hs := sorted_sortUniversities_desc SortField.ranking hfne l
    have hperm := sortUniversities_perm (some SortField.ranking) SortOrder.desc l
    refine List.Pairwise.imp_of_mem ?_ hs
    intro a b ha hb hle hnone
    by_contra han
    obtain ⟨r, hr⟩ := Option.ne_none_iff_exists'.mp han
    have hal : a ∈ l := hperm.mem_iff.mp ha
    have hrlt : r < maxSafeInteger := by
      have := h a hal
      rwa [hr, Option.getD_some] at this
    have hkb : numKey SortField.ranking b = maxSafeInteger := by
      simp [numKey, hnone]
    have hka : numKey SortField.ranking a = r := by
      simp [numKey, hr]
    rw [hka, hkb] at hle
    exact absurd (lt_of_le_of_lt hle hrlt) (lt_irrefl _)

/-- C2 witness: the sample catalog (rankings 1, 5 and one missing). -/
theorem ranking_sort_unranked_placement_witness :
    ((sortUniversities (some SortField.ranking) SortOrder.asc sampleCatalog).Pairwise
      (fun a b => a.ranking = none → b.ranking = none)) :=
  (ranking_sort_unranked_placement sampleCatalog (by decide)).1

/-- C8: for every numeric sort field, when the keys are pairwise distinct the
descending sort is the exact reverse of the ascending sort. -/
theorem numeric_sort_desc_reverse_asc (f : SortField) (l : List University)
    (hf : f ≠ SortField.name)
    (hd : l.Pairwise (fun a b => numKey f a ≠ numKey f b)) :
    sortUniversities (some f) SortOrder.desc l =
      (sortUniversities (some f) SortOrder.asc l).reverse := by
  have hA := sorted_sortUniversities_asc f hf l
  have hD := sorted_sortUniversities_desc f hf l
  have hpA := sortUniversities_perm (some f) SortOrder.asc l
  have hpD := sortUniversities_perm (some f) SortOrder.desc l
  have hsymm : Symmetric (fun a b : University => numKey f a ≠ numKey f b) :=
    fun a b hab => Ne.symm hab
  have hdA : (sortUniversities (some f) SortOrder.asc l).Pairwise
      (fun a b => numKey f a ≠ numKey f b) :=
    (hpA.pairwise_iff (fun hab => hsymm hab)).mpr hd
  have hsA : (sortUniversities (some f) SortOrder.asc l).Pairwise
      (fun a b => numKey f a < numKey f b) :=
    (hA.and hdA).imp (fun hab => lt_of_le_of_ne hab.1 hab.2)
  have hDrev : (sortUniversities (some f) SortOrder.desc l).reverse.Pairwise
      (fun a b => numKey f a ≤ numKey f b) := List.pairwise_reverse.mpr hD
  have hpDrev : (sortUniversities (some f) SortOrder.desc l).reverse.Perm l :=
    (sortUniversities (some f) SortOrder.desc l).reverse_perm.trans hpD
  have hdDrev : (sortUniversities (some f) SortOrder.desc l).reverse.Pairwise
      (fun a b => numKey f a ≠ numKey f b) :=
    (hpDrev.pairwise_iff (fun hab => hsymm hab)).mpr hd
  have hsDrev : (sortUniversities (some f) SortOrder.desc l).reverse.Pairwise
      (fun a b => numKey f a < numKey f b) :=
    (hDrev.and hdDrev).imp (fun hab => lt_of_le_of_ne hab.1 hab.2)
  haveI : IsAntisymm University (fun a b => numKey f a < numKey f b) :=
    ⟨fun a b h1 h2 => absurd h2 (not_lt.mpr h1.le)⟩
  have heq : (sortUniversities (some f) SortOrder.desc l).reverse =
      sortUniversities (some f) SortOrder.asc l :=
    List.eq_of_perm_of_sorted (hpDrev.trans hpA.symm) hsDrev hsA
  calc sortUniversities (some f) SortOrder.desc l
      = (sortUniversities (some f) SortOrder.desc l).reverse.reverse :=
        (List.reverse_reverse _).symm
    _ = (sortUniversities (some f) SortOrder.asc l).reverse := by rw [heq]

/-- C8 witness: sorting the sample catalog by tuition fee (fees 10000, 20000,
5000 are pairwise distinct). -/
theorem numeric_sort_desc_reverse_asc_witness :
    sortUniversities (some SortField.tuitionFee) SortOrder.desc sampleCatalog =
      (sortUniversities (some SortField.tuitionFee) SortOrder.asc sampleCatalog).reverse :=
  numeric_sort_desc_reverse_asc SortField.tuitionFee sampleCatalog (by decide) (by decide)

theorem length_le_ceil_mul (len limit : Nat) (hl : 1 ≤ limit) :
    len ≤ (⌈(len : ℚ) / (limit : ℚ)⌉).toNat * limit := by
  have hlpos : (0 : ℚ) < (limit : ℚ) := by exact_mod_cast hl
  have h1 : ((len : ℚ)) / (limit : ℚ) ≤ (⌈(len : ℚ) / (limit : ℚ)⌉ : ℚ) := Int.le_ceil _
  have h2 : (0 : ℤ) ≤ ⌈(len : ℚ) / (limit : ℚ)⌉ := Int.ceil_nonneg (by positivity)
  have h3 : (len : ℚ) ≤ (⌈(len : ℚ) / (limit : ℚ)⌉ : ℚ) * (limit : ℚ) :=
    (div_le_iff₀ hlpos).mp h1
  have h4 : ((⌈(len : ℚ) / (limit : ℚ)⌉.toNat : ℤ) : ℚ) = ((⌈(len : ℚ) / (limit : ℚ)⌉ : ℤ) : ℚ) := by
    exact_mod_cast congrArg Int.cast (Int.toNat_of_nonneg h2)
  have h5 : (len : ℚ) ≤ ((⌈(len : ℚ) / (limit : ℚ)⌉.toNat * limit : Nat) : ℚ) := by
    push_cast
    rw [show ((⌈(len : ℚ) / (limit : ℚ)⌉.toNat : ℚ)) = ((⌈(len : ℚ) / (limit : ℚ)⌉ : ℤ) : ℚ) by
      exact_mod_cast h4]
    exact h3
  exact_mod_cast h5

/-- C4: pagination reports `total` as the length of the incoming sequence,
`totalPages` as the ceiling of `total / limit`, and returns the slice window
`[(page-1)*limit, (page-1)*limit + limit)` clipped to the available length;
its length is at most `limit` and at most `total - (page-1)*limit` (truncated
at 0), and a page beyond the last yields the empty slice rather than an error. -/
theorem paginate_spec (l : List University) (page limit : Nat)
    (hp : 1 ≤ page) (hl : 1 ≤ limit) :
    (paginateResults l page limit).total = l.length ∧
    (paginateResults l page limit).totalPages =
      ⌈((l.length : ℚ)) / (limit : ℚ)⌉ ∧
    (paginateResults l page limit).data = (l.drop ((page - 1) * limit)).take limit ∧
    (paginateResults l page limit).data.length ≤ limit ∧
    (paginateResults l page limit).data.length ≤ l.length - (page - 1) * limit ∧
    (l.length ≤ (page - 1) * limit → (paginateResults l page limit).data = []) ∧
    ((paginateResults l page limit).totalPages.toNat < page →
      (paginateResults l page limit).data = []) := by
  refine ⟨rfl, rfl, rfl, ?_, ?_, ?_, ?_⟩
  · simp only [paginateResults, List.length_take]
    exact min_le_left _ _
  · simp only [paginateResults, List.length_take, List.length_drop]
    exact min_le_right _ _
  · intro h
    simp only [paginateResults]
    rw [List.drop_eq_nil_of_le h, List.take_nil]
  · intro h
    have hle : (paginateResults l page limit).totalPages.toNat ≤ page - 1 :=
      Nat.le_sub_one_of_lt h
    have hlen : l.length ≤ (page - 1) * limit := by
      calc l.length ≤ (⌈((l.length : ℚ)) / (limit : ℚ)⌉).toNat * limit :=
            length_le_ceil_mul l.length limit hl
        _ ≤ (page - 1) * limit := Nat.mul_le_mul_right limit hle
    simp only [paginateResults]
    rw [List.drop_eq_nil_of_le hlen, List.take_nil]

/-- C4 witness: page 2 of the three-record sample catalog with limit 2. -/
theorem paginate_spec_witness :
    (paginateResults sampleCatalog 2 2).data.length ≤ 2 :=
  (paginate_spec sampleCatalog 2 2 (by decide) (by decide)).2.2.2.1

theorem getByIds_len_le_one (catalog : List University) (ids : List String)
    (c : String) (hnd : (catalog.map University.id).Nodup)
    (hall : ∀ u ∈ getUniversitiesByIds catalog ids, u.id = c) :
    (getUniversitiesByIds catalog ids).length ≤ 1 := by
  have hsub : (getUniversitiesByIds catalog ids).Sublist catalog :=
    List.filter_sublist catalog
  have hnd2 : ((getUniversitiesByIds catalog ids).map University.id).Nodup :=
    hnd.sublist (hsub.map University.id)
  cases hl : getUniversitiesByIds catalog ids with
  | nil => simp
  | cons x t =>
    cases t with
    | nil => simp
    | cons y t2 =>
      exfalso
      have hx : x.id = c := hall x (by rw [hl]; exact List.mem_cons_self _ _)
      have hy : y.id = c := hall y
        (by rw [hl]; exact List.mem_cons_of_mem _ (List.mem_cons_self _ _))
      rw [hl] at hnd2
      have hne := (List.nodup_cons.mp hnd2).1
      exact hne (by rw [hx]; exact List.mem_map.mpr ⟨y, List.mem_cons_self _ _, hy⟩)

theorem compareIds_notFound_of_short (catalog : List University) (ids : List String)
    (h2 : ids.length = 2) (hle : (getUniversitiesByIds catalog ids).length ≤ 1) :
    compareIds catalog ids = Except.error CompareError.notFound := by
  unfold compareIds
  rw [if_neg (by simp [h2])]
  cases hl : getUniversitiesByIds catalog ids with
  | nil => rfl
  | cons x t =>
    cases t with
    | nil => rfl
    | cons y t2 =>
      rw [hl] at hle
      simp at hle

/-- C3 counterexample: a repeated existing identifier passes the exactly-two
check, but the id-filter returns a single record, so the route fails with
notFound (HTTP 404), not invalidArgument (HTTP 400) as the claim states. -/
theorem compare_repeated_id_cex :
    compareIds sampleCatalog ["alpha", "alpha"] = Except.error CompareError.notFound ∧
    compareIds sampleCatalog ["alpha", "alpha"] ≠
      Except.error CompareError.invalidArgument := by decide

/-- C3 amended: over a catalog with unique identifiers, supplying a number of
identifiers other than two fails with invalidArgument; supplying two
identifiers fails with notFound when either has no matching record; and
supplying one identifier repeated twice fails with notFound (the duplicate
resolves to at most one record). -/
theorem compare_error_cases (catalog : List University) (ids : List String)
    (hnd : (catalog.map University.id).Nodup) :
    (ids.length ≠ 2 → compareIds catalog ids = Except.error CompareError.invalidArgument) ∧
    (∀ a b, ids = [a, b] →
      ((∀ u ∈ catalog, u.id ≠ a) ∨ (∀ u ∈ catalog, u.id ≠ b)) →
      compareIds catalog ids = Except.error CompareError.notFound) ∧
    (∀ a, ids = [a, a] → compareIds catalog ids = Except.error CompareError.notFound) := by
  refine ⟨?_, ?_, ?_⟩
  · intro h
    simp [compareIds, h]
  · intro a b hids hmiss
    subst hids
    refine compareIds_notFound_of_short catalog [a, b] rfl ?_
    rcases hmiss with hna | hnb
    · refine getByIds_len_le_one catalog [a, b] b hnd ?_
      intro u hu
      have hmem := List.mem_filter.mp hu
      have hid : u.id = a ∨ u.id = b := by simpa using hmem.2
      rcases hid with hid | hid
      · exact absurd hid (hna u hmem.1)
      · exact hid
    · refine getByIds_len_le_one catalog [a, b] a hnd ?_
      intro u hu
      have hmem := List.mem_filter.mp hu
      have hid : u.id = a ∨ u.id = b := by simpa using hmem.2
      rcases hid with hid | hid
      · exact hid
      · exact absurd hid (hnb u hmem.1)
  · intro a hids
    subst hids
    refine compareIds_notFound_of_short catalog [a, a] rfl ?_
    refine getByIds_len_le_one catalog [a, a] a hnd ?_
    intro u hu
    have hmem := List.mem_filter.mp hu
    have hid : u.id = a ∨ u.id = a := by simpa using hmem.2
    exact hid.elim id id

/-- C3 witness: a single identifier over the sample catalog is rejected with
invalidArgument. -/
theorem compare_error_cases_witness :
    compareIds sampleCatalog ["alpha"] = Except.error CompareError.invalidArgument :=
  (compare_error_cases sampleCatalog ["alpha"] (by decide)).1 (by decide)

theorem mkComparison_spec (u1 u2 : University) (h1 : 0 < u1.ranking.getD 1)
    (h2 : 0 < u2.ranking.getD 1) :
    (mkComparison u1 u2).tuitionDifference = |u1.tuitionFee - u2.tuitionFee| ∧
    (mkComparison u1 u2).acceptanceRateDifference = |u1.acceptanceRate - u2.acceptanceRate| ∧
    (mkComparison u1 u2).employmentRateDifference = |u1.employmentRate - u2.employmentRate| ∧
    (∀ r1 r2, u1.ranking = some r1 → u2.ranking = some r2 →
      (mkComparison u1 u2).rankingDifference = some |r1 - r2|) ∧
    ((u1.ranking = none ∨ u2.ranking = none) →
      (mkComparison u1 u2).rankingDifference = none) ∧
    0 ≤ (mkComparison u1 u2).tuitionDifference ∧
    0 ≤ (mkComparison u1 u2).acceptanceRateDifference ∧
    0 ≤ (mkComparison u1 u2).employmentRateDifference ∧
    (∀ d, (mkComparison u1 u2).rankingDifference = some d → 0 ≤ d) := by
  refine ⟨rfl, rfl, rfl, ?_, ?_, abs_nonneg _, abs_nonneg _, abs_nonneg _, ?_⟩
  · intro r1 r2 hr1 hr2
    rw [hr1, Option.getD_some] at h1
    rw [hr2, Option.getD_some] at h2
    simp only [mkComparison, hr1, hr2]
    rw [if_pos ⟨h1.ne', h2.ne'⟩]
  · intro hor
    rcases hor with hn | hn
    · rcases hu2 : u2.ranking with _ | r2 <;> simp [mkComparison, hn, hu2]
    · rcases hu1 : u1.ranking with _ | r1 <;> simp [mkComparison, hn, hu1]
  · intro d hd
    rcases hu1 : u1.ranking with _ | r1
    · simp [mkComparison, hu1] at hd
    · rcases hu2 : u2.ranking with _ | r2
      · simp [mkComparison, hu1, hu2] at hd
      · simp only [mkComparison, hu1, hu2] at hd
        by_cases hc : r1 ≠ 0 ∧ r2 ≠ 0
        · rw [if_pos hc] at hd
          have := Option.some.inj hd
          rw [← this]
          exact abs_nonneg _
        · rw [if_neg hc] at hd
          simp at hd

/-- C6: on success, the comparison metrics are exactly the absolute
differences of tuition, acceptance rate and employment rate; the ranking
difference is the absolute ranking difference when both records are ranked
and absent otherwise (rankings being positive on the catalog, as the data
model requires); all present metrics are non-negative. -/
theorem compare_metrics_abs (catalog : List University) (ids : List String)
    (c : Comparison) (h : compareIds catalog ids = Except.ok c)
    (hpos : ∀ u ∈ catalog, 0 < u.ranking.getD 1) :
    c.tuitionDifference = |c.first.tuitionFee - c.second.tuitionFee| ∧
    c.acceptanceRateDifference = |c.first.acceptanceRate - c.second.acceptanceRate| ∧
    c.employmentRateDifference = |c.first.employmentRate - c.second.employmentRate| ∧
    (∀ r1 r2, c.first.ranking = some r1 → c.second.ranking = some r2 →
      c.rankingDifference = some |r1 - r2|) ∧
    ((c.first.ranking = none ∨ c.second.ranking = none) → c.rankingDifference = none) ∧
    0 ≤ c.tuitionDifference ∧ 0 ≤ c.acceptanceRateDifference ∧
    0 ≤ c.employmentRateDifference ∧
    (∀ d, c.rankingDifference = some d → 0 ≤ d) := by
  by_cases hlen : ids.length ≠ 2
  · unfold compareIds at h
    rw [if_pos hlen] at h
    simp at h
  · unfold compareIds at h
    rw [if_neg hlen] at h
    cases hfl : getUniversitiesByIds catalog ids with
    | nil => rw [hfl] at h; simp at h
    | cons u1 t =>
      cases t with
      | nil => rw [hfl] at h; simp at h
      | cons u2 t2 =>
        cases t2 with
        | cons z t3 => rw [hfl] at h; simp at h
        | nil =>
          rw [hfl] at h
          have hc : mkComparison u1 u2 = c := by simpa using h
          subst hc
          have hm1 : u1 ∈ getUniversitiesByIds catalog ids := by
            rw [hfl]; exact List.mem_cons_self _ _
          have hm2 : u2 ∈ getUniversitiesByIds catalog ids := by
            rw [hfl]; exact List.mem_cons_of_mem _ (List.mem_cons_self _ _)
          simp only [getUniversitiesByIds] at hm1 hm2
          have hu1 : u1 ∈ catalog := (List.mem_filter.mp hm1).1
          have hu2 : u2 ∈ catalog := (List.mem_filter.mp hm2).1
          exact mkComparison_spec u1 u2 (hpos u1 hu1) (hpos u2 hu2)

/-- C6 witness: comparing the two ranked sample records. -/
theorem compare_metrics_abs_witness :
    0 ≤ (mkComparison uniAlpha uniBeta).tuitionDifference :=
  (compare_metrics_abs sampleCatalog ["alpha", "beta"] (mkComparison uniAlpha uniBeta)
    rfl (by decide)).2.2.2.2.2.1

/-- C7 counterexample: swapping the two supplied identifiers changes nothing —
the records come back in catalog order either way, so the university labeled
first is the same (`uniAlpha`, id "alpha") even when "beta" is supplied first,
contradicting the claim that the swap changes which university is labeled
first/second. -/
theorem compare_swap_labels_cex :
    compareIds sampleCatalog ["beta", "alpha"] = Except.ok (mkComparison uniAlpha uniBeta) ∧
    compareIds sampleCatalog ["alpha", "beta"] = Except.ok (mkComparison uniAlpha uniBeta) ∧
    (mkComparison uniAlpha uniBeta).first = uniAlpha ∧
    uniAlpha.id = "alpha" ∧ uniBeta.id = "beta" :=
  ⟨rfl, rfl, rfl, rfl, rfl⟩

/-- C7 amended: the comparison result is entirely invariant under swapping the
two supplied identifiers — all four difference magnitudes and even the
returned pair (always in catalog order) are identical. -/
theorem compare_swap_invariant (catalog : List University) (a b : String) :
    compareIds catalog [a, b] = compareIds catalog [b, a] := by
  unfold compareIds
  rw [if_neg (show ¬(([a, b] : List String).length ≠ 2) by simp),
    if_neg (show ¬(([b, a] : List String).length ≠ 2) by simp)]
  have hfil : getUniversitiesByIds catalog [a, b] = getUniversitiesByIds catalog [b, a] := by
    unfold getUniversitiesByIds
    refine List.filter_congr ?_
    intro u _
    cases h1 : u.id == a <;> cases h2 : u.id == b <;>
      simp [List.contains, List.elem, h1, h2]
  rw [hfil]

end UniFinder
